import Mathlib

/-!
Verification of the TaskManager repository (src/app.py, src/auth.py,
src/database.py) against its natural-language specification.

The development shallowly embeds the store operations of `database.py`
(`TaskDB.register_user`, `verify_user`, `save_task`, `get_tasks`,
`complete_task`, `delete_task`), the password policy of `auth.py`
(`Auth.validate_password`), and the note-extraction pipeline of `app.py`
(`parse_task`, `check_overdue`, and the save flow of `main`).

Modelling conventions:
- The SQLite database is an in-memory record of a user table and a task
  table; each `INTEGER PRIMARY KEY` is a `Nat` counter.  The `created_at`
  columns (filled by the store's `CURRENT_TIMESTAMP` default and never read
  by the program) are not modelled.
- SHA-256 (`hash_password`) is an external library call; operations that
  hash take the digest function as an explicit argument `hash` and the
  theorems hold for every such function.
- `json.loads` is an external library call; the pipeline takes the decoder
  as an explicit argument `decode : String -> Option Json` (`none` models
  `json.JSONDecodeError`), and theorems quantify over it.
- `datetime.now()` is passed in as an explicit `Date` (or, for completion
  timestamps, a preformatted `String`).
- Python exceptions caught by the source's `except` blocks are modelled as
  explicit error results (`Except`/`Bool`/`Option`), mirroring each
  `try`/`except` in the source.
-/

namespace TaskManager

/-! ## Calendar dates (models Python `datetime.date`) -/

/-- A Gregorian calendar date, as carried by Python `datetime.date`. -/
structure Date where
  year : Nat
  month : Nat
  day : Nat
deriving DecidableEq, Repr

/-- Gregorian leap-year rule (as implemented by Python `datetime`). -/
def isLeap (y : Nat) : Bool :=
  (y % 4 == 0 && y % 100 != 0) || y % 400 == 0

/-- Number of days in a month (as enforced by the `datetime` constructor). -/
def daysInMonth (y m : Nat) : Nat :=
  if m == 2 then (if isLeap y then 29 else 28)
  else if m == 4 || m == 6 || m == 9 || m == 11 then 30
  else 31

/-- The next calendar day: models `datetime.now() + timedelta(days=1)`. -/
def nextDay (d : Date) : Date :=
  if d.day < daysInMonth d.year d.month then ⟨d.year, d.month, d.day + 1⟩
  else if d.month < 12 then ⟨d.year, d.month + 1, 1⟩
  else ⟨d.year + 1, 1, 1⟩

/-- Zero-pad to two digits: models `strftime` `%d` and `%m`. -/
def pad2 (n : Nat) : String :=
  if n < 10 then "0" ++ toString n else toString n

/-- Zero-pad to four digits: models `strftime` `%Y`. -/
def pad4 (n : Nat) : String :=
  if n < 10 then "000" ++ toString n
  else if n < 100 then "00" ++ toString n
  else if n < 1000 then "0" ++ toString n
  else toString n

/-- Models `strftime(<percent>d-<percent>m-<percent>Y)`. -/
def fmtDDMMYYYY (d : Date) : String :=
  pad2 d.day ++ "-" ++ pad2 d.month ++ "-" ++ pad4 d.year

/-- Strict comparison of dates: models Python `date.__lt__`
(lexicographic on year, month, day). -/
def dateLt (a b : Date) : Bool :=
  a.year < b.year ||
    (a.year == b.year &&
      (a.month < b.month || (a.month == b.month && a.day < b.day)))

/-! ## JSON values (the shapes `json.loads` can return) -/

/-- A JSON value as produced by Python `json.loads`: `null`, booleans,
numbers, strings, arrays, and objects (Python dicts, modelled as
association lists with the first binding of a key authoritative). -/
inductive Json where
  | null
  | bool (b : Bool)
  | num (n : Int)
  | str (s : String)
  | arr (xs : List Json)
  | obj (fields : List (String × Json))

/-- Dictionary lookup: models `parsed.get(key)` / `key in parsed`. -/
def lookupField (fields : List (String × Json)) (key : String) : Option Json :=
  match fields.find? (fun kv => kv.1 == key) with
  | some kv => some kv.2
  | none => none

/-- Dictionary assignment `parsed[key] = v`: replaces the binding of `key`
(appending it when absent). -/
def setField : List (String × Json) → String → Json → List (String × Json)
  | [], key, v => [(key, v)]
  | kv :: rest, key, v =>
    if kv.1 == key then (key, v) :: rest else kv :: setField rest key v

/-! ## The store (src/database.py) -/

/-- A row of the `users` table:
`id INTEGER PRIMARY KEY, email TEXT UNIQUE NOT NULL, password TEXT NOT NULL`.
`password` holds the digest (`hash_password` output). -/
structure UserRow where
  id : Nat
  email : String
  password : String
deriving DecidableEq, Repr

/-- A row of the `tasks` table.  `task` is `TEXT NOT NULL`; `customer`,
`due_date`, `priority`, `completion_date` are nullable `TEXT` columns
(`none` models SQL `NULL`); `status` defaults to `"active"`. -/
structure TaskRow where
  id : Nat
  user_id : Nat
  task : String
  customer : Option String
  due_date : Option String
  priority : Option String
  status : String
  completion_date : Option String
deriving DecidableEq, Repr

/-- The whole store: the two tables plus the next auto-assigned primary
keys (SQLite row ids, starting at 1). -/
structure TaskDB where
  users : List UserRow
  tasks : List TaskRow
  nextUserId : Nat
  nextTaskId : Nat
deriving DecidableEq, Repr

/-- The store right after `init_database` on a fresh file: both tables
empty. -/
def emptyDB : TaskDB := ⟨[], [], 1, 1⟩

/-- `TaskDB.register_user` (database.py lines 61-85): inserts
`(email, hash_password(password))`; the `UNIQUE` constraint on `email`
raises `sqlite3.IntegrityError` on a duplicate, which the source catches
and turns into `False`, leaving the table unchanged. -/
def register_user (hash : String → String) (db : TaskDB)
    (email password : String) : TaskDB × Bool :=
  if db.users.any (fun u => u.email == email) then (db, false)
  else
    ({ db with
        users := db.users ++ [⟨db.nextUserId, email, hash password⟩],
        nextUserId := db.nextUserId + 1 }, true)

/-- The projection of a user row that `verify_user` returns
(`SELECT id, email ...`). -/
structure UserIdent where
  id : Nat
  email : String
deriving DecidableEq, Repr

/-- `TaskDB.verify_user` (database.py lines 87-111): recomputes the digest
and fetches one row matching both email and digest
(`WHERE email=? AND password=?`); returns its id and email, or `none`. -/
def verify_user (hash : String → String) (db : TaskDB)
    (email password : String) : Option UserIdent :=
  match db.users.find? (fun u => u.email == email && u.password == hash password) with
  | some u => some ⟨u.id, u.email⟩
  | none => none

/-- SQLite parameter binding into a `TEXT`-affinity column: strings stay
text, integers and booleans are converted to their decimal text, `None`
becomes SQL `NULL`, and unsupported Python types (lists, dicts) raise
`sqlite3.InterfaceError` (modelled as `none`). -/
def jsonToText : Json → Option (Option String)
  | Json.str s => some (some s)
  | Json.num n => some (some (toString n))
  | Json.bool b => some (some (if b then "1" else "0"))
  | Json.null => some none
  | Json.arr _ => none
  | Json.obj _ => none

/-- `TaskDB.save_task` (database.py lines 113-136): reads the four keys of
`task_data` (a missing key raises `KeyError`, caught and turned into
`False`), binds them into the `INSERT` (an unsupported value type or a
`NULL` for the `NOT NULL` column `task` raises, caught and turned into
`False`), and otherwise appends a row with `status = "active"` and
`completion_date` NULL. -/
def save_task (db : TaskDB) (user_id : Nat)
    (task_data : List (String × Json)) : TaskDB × Bool :=
  match lookupField task_data "task", lookupField task_data "customer",
      lookupField task_data "due_date", lookupField task_data "priority" with
  | some tj, some cj, some dj, some pj =>
    match jsonToText tj, jsonToText cj, jsonToText dj, jsonToText pj with
    | some (some t), some c, some d, some p =>
      ({ db with
          tasks := db.tasks ++
            [⟨db.nextTaskId, user_id, t, c, d, p, "active", none⟩],
          nextTaskId := db.nextTaskId + 1 }, true)
    | _, _, _, _ => (db, false)
  | _, _, _, _ => (db, false)

/-- The projection of a task row returned by `get_tasks`
(`SELECT id, task, customer, due_date, priority, completion_date`). -/
structure TaskView where
  id : Nat
  task : String
  customer : Option String
  due_date : Option String
  priority : Option String
  completion_date : Option String
deriving DecidableEq, Repr

/-- Projection of a stored row to the columns `get_tasks` selects. -/
def taskView (t : TaskRow) : TaskView :=
  ⟨t.id, t.task, t.customer, t.due_date, t.priority, t.completion_date⟩

/-- Byte-wise (code point) comparison of character lists: SQLite's BINARY
collation on `TEXT`, which on UTF-8 agrees with lexicographic code-point
order. -/
def charListLe : List Char → List Char → Bool
  | [], _ => true
  | _ :: _, [] => false
  | a :: as, b :: bs =>
    if a < b then true else if b < a then false else charListLe as bs

/-- String comparison used by `ORDER BY due_date` on `TEXT` values. -/
def strLe (a b : String) : Bool := charListLe a.data b.data

/-- `ORDER BY` comparison on a nullable `TEXT` column: SQL `NULL` sorts
before every text value. -/
def optStrLe : Option String → Option String → Bool
  | none, _ => true
  | some _, none => false
  | some a, some b => strLe a b

/-- The sort order of `get_tasks`: ascending `due_date`. -/
def viewLe (a b : TaskView) : Prop := optStrLe a.due_date b.due_date = true

instance : DecidableRel viewLe := fun a b => by
  unfold viewLe; infer_instance

/-- `TaskDB.get_tasks` (database.py lines 138-161):
`SELECT ... WHERE user_id=? AND status=? ORDER BY due_date`. -/
def get_tasks (db : TaskDB) (user_id : Nat) (status : String) : List TaskView :=
  List.insertionSort viewLe
    ((db.tasks.filter (fun t => t.user_id == user_id && t.status == status)).map taskView)

/-- `TaskDB.complete_task` (database.py lines 163-182): an `UPDATE` setting
`status` and `completion_date` on rows matching `id=? AND user_id=?`
(`now` models `datetime.now().strftime` of the current local time).  The
source returns `True` whether or not any row matched. -/
def complete_task (db : TaskDB) (user_id task_id : Nat)
    (now : String) : TaskDB × Bool :=
  ({ db with
      tasks := db.tasks.map (fun t =>
        if t.id == task_id && t.user_id == user_id then
          { t with status := "completed", completion_date := some now }
        else t) }, true)

/-- `TaskDB.delete_task` (database.py lines 184-198):
`DELETE FROM tasks WHERE id=? AND user_id=?`; returns `True`. -/
def delete_task (db : TaskDB) (user_id task_id : Nat) : TaskDB × Bool :=
  ({ db with
      tasks := db.tasks.filter (fun t => !(t.id == task_id && t.user_id == user_id)) },
    true)

/-! ## The password policy (src/auth.py) -/

/-- `Auth.validate_password` (auth.py lines 15-25): minimum length 8, at
least one uppercase letter, one lowercase letter, and one digit; returns
the flag together with the message shown to the user. -/
def validate_password (password : String) : Bool × String :=
  if password.length < 8 then
    (false, "Password must be at least 8 characters long")
  else if !(password.toList.any Char.isUpper) then
    (false, "Password must contain at least one uppercase letter")
  else if !(password.toList.any Char.isLower) then
    (false, "Password must contain at least one lowercase letter")
  else if !(password.toList.any Char.isDigit) then
    (false, "Password must contain at least one number")
  else (true, "")

/-! ## The note-extraction pipeline (src/app.py) -/

/-- The pipeline's failure taxonomy.  In the source every branch returns
`None` after showing a distinct `st.error` message; the constructors name
those distinct paths: no/empty model response (app.py lines 96-97),
`json.JSONDecodeError` (lines 130-132), the missing-required-fields check
(lines 123-126), and any other caught exception (lines 133-135). -/
inductive ParseFailure where
  | emptyResponse
  | malformedResponse
  | incompleteRecord
  | genericError
deriving DecidableEq, Repr

/-- Python `str.lower()` (the inputs at hand are ASCII). -/
def pyLower (s : String) : String := String.mk (s.data.map Char.toLower)

/-- Python `str.strip()` on the characters of a string: drop leading and
trailing whitespace. -/
def trimChars (l : List Char) : List Char :=
  ((l.dropWhile Char.isWhitespace).reverse.dropWhile Char.isWhitespace).reverse

/-- Python `str.split(sep)` for a three-character separator `x y z`
(used with the three-backtick fence): non-overlapping splits scanned left
to right, keeping empty pieces.  `acc` carries the characters of the
current piece, reversed. -/
def splitSeq3 (x y z : Char) : List Char → List Char → List (List Char)
  | [], acc => [acc.reverse]
  | a :: b :: c :: rest, acc =>
    if a == x && b == y && c == z then acc.reverse :: splitSeq3 x y z rest []
    else splitSeq3 x y z (b :: c :: rest) (a :: acc)
  | a :: rest, acc => splitSeq3 x y z rest (a :: acc)

/-- The backtick character (code point 96). -/
def backtick : Char := Char.ofNat 96

/-- Python `response.strip(backtick)`: drops leading and trailing
backtick characters. -/
def stripBackticks (l : List Char) : List Char :=
  ((l.dropWhile (fun c => c == backtick)).reverse.dropWhile
    (fun c => c == backtick)).reverse

/-- The response clean-up of `parse_task` (app.py lines 99-112):
strip whitespace; when the text contains a three-backtick fence take the
text between the first pair of fences (`response.split` at the fence,
element 1) and drop a leading `json` language tag (the first four
characters); finally strip stray backticks and whitespace. -/
def unwrapResponse (response : String) : String :=
  let r := trimChars response.data
  let parts := splitSeq3 backtick backtick backtick r []
  let r :=
    if parts.length ≥ 2 then
      let mid := parts.getD 1 []
      match mid with
      | 'j' :: 's' :: 'o' :: 'n' :: rest => rest
      | _ => mid
    else r
  String.mk (trimChars (stripBackticks r))

/-- The due-date normalization (app.py lines 117-120):
`parsed.get(due_date, empty).lower() == tomorrow` replaces the value with
tomorrow's date formatted DD-MM-YYYY.  A present non-string value raises
`AttributeError` on `.lower()`, caught by the generic handler. -/
def normalizeDue (today : Date) (fields : List (String × Json)) :
    Except ParseFailure (List (String × Json)) :=
  match lookupField fields "due_date" with
  | some (Json.str s) =>
    if pyLower s == "tomorrow" then
      Except.ok (setField fields "due_date" (Json.str (fmtDDMMYYYY (nextDay today))))
    else Except.ok fields
  | some _ => Except.error ParseFailure.genericError
  | none => Except.ok fields

/-- The four required fields (app.py line 123). -/
def required_fields : List String := ["task", "customer", "due_date", "priority"]

/-- The required-fields check (app.py lines 122-126). -/
def validateFields (fields : List (String × Json)) :
    Except ParseFailure (List (String × Json)) :=
  if required_fields.all (fun k => (lookupField fields k).isSome) then
    Except.ok fields
  else Except.error ParseFailure.incompleteRecord

/-- The post-decode stages of `parse_task`: a failed `json.loads` is
`JSONDecodeError`; a non-dict top-level value raises `AttributeError` on
`.get`, caught by the generic handler; then normalization and
validation. -/
def decodeStage (today : Date) (decoded : Option Json) :
    Except ParseFailure (List (String × Json)) :=
  match decoded with
  | none => Except.error ParseFailure.malformedResponse
  | some (Json.obj fields) =>
    match normalizeDue today fields with
    | Except.ok fs => validateFields fs
    | Except.error e => Except.error e
  | some _ => Except.error ParseFailure.genericError

/-- `parse_task` (app.py lines 72-135), from the model's response onward:
`response` is `query_gemini`'s result (`none` models an exception or an
empty completion), `decode` models `json.loads`, `today` the moment of
extraction.  Returns the parsed dict or the typed failure. -/
def parse_task (decode : String → Option Json) (today : Date)
    (response : Option String) : Except ParseFailure (List (String × Json)) :=
  match response with
  | none => Except.error ParseFailure.emptyResponse
  | some resp =>
    if resp == "" then Except.error ParseFailure.emptyResponse
    else decodeStage today (decode (unwrapResponse resp))

/-- The save flow of `main` (app.py lines 179-190): persist the parsed
task only when `parse_task` succeeded; on failure the store is not
touched.  The returned flag is whether a task was added. -/
def processNote (db : TaskDB) (user_id : Nat) (decode : String → Option Json)
    (today : Date) (response : Option String) : TaskDB × Bool :=
  match parse_task decode today response with
  | Except.ok parsed => save_task db user_id parsed
  | Except.error _ => (db, false)

/-! ## The overdue check (src/app.py lines 137-143) -/

/-- Python `str.split(sep)` for a one-character separator (used to take
the dash-separated date fields apart), keeping empty pieces. -/
def splitChar (sep : Char) : List Char → List (List Char)
  | [] => [[]]
  | c :: rest =>
    let r := splitChar sep rest
    if c == sep then [] :: r
    else
      match r with
      | h :: t => (c :: h) :: t
      | [] => [[c]]

/-- The numeric value of a digit string. -/
def digitsToNat (l : List Char) : Nat :=
  l.foldl (fun a c => a * 10 + (c.toNat - 48)) 0

/-- A nonempty all-digit field, as matched by one `strptime` directive. -/
def parseNatField (l : List Char) : Option Nat :=
  if l.length > 0 && l.all Char.isDigit then some (digitsToNat l) else none

/-- `datetime.strptime(s, <percent>d-<percent>m-<percent>Y)`: three
dash-separated all-digit fields — day of one or two digits in 1..31,
month of one or two digits in 1..12, year of exactly four digits — and
the constructed date must be a real calendar date with year at least 1.
Any other string raises `ValueError`. -/
def parseDDMMYYYY (s : String) : Option Date :=
  match splitChar '-' s.data with
  | [ds, ms, ys] =>
    match parseNatField ds, parseNatField ms, parseNatField ys with
    | some d, some m, some y =>
      if ds.length ≤ 2 && 1 ≤ d && d ≤ 31 &&
          ms.length ≤ 2 && 1 ≤ m && m ≤ 12 &&
          ys.length == 4 && 1 ≤ y && d ≤ daysInMonth y m then
        some ⟨y, m, d⟩
      else none
    | _, _, _ => none
  | _ => none

/-- `check_overdue` (app.py lines 137-143): parse the due date and compare
it strictly against today's date; any exception yields `False`. -/
def check_overdue (today : Date) (due_date_str : String) : Bool :=
  match parseDDMMYYYY due_date_str with
  | some d => dateLt d today
  | none => false

/-! ## Reachable store states -/

/-- States reachable from a fresh store through the operations the
application performs: registration, note extraction followed by `create`
(tasks enter the store only through this path), task completion, and task
deletion. -/
inductive Reachable : TaskDB → Prop where
  | init : Reachable emptyDB
  | step_register (hash : String → String) (db : TaskDB) (email password : String) :
      Reachable db → Reachable (register_user hash db email password).1
  | step_extract (db : TaskDB) (uid : Nat) (decode : String → Option Json)
      (today : Date) (resp : Option String) :
      Reachable db → Reachable (processNote db uid decode today resp).1
  | step_complete (db : TaskDB) (uid tid : Nat) (now : String) :
      Reachable db → Reachable (complete_task db uid tid now).1
  | step_delete (db : TaskDB) (uid tid : Nat) :
      Reachable db → Reachable (delete_task db uid tid).1

/-- Reachable states in which every extraction that succeeded carried a
priority that is one of the three instructed literals (the model kept to
its instructed format).  Same steps as `Reachable` otherwise. -/
inductive GoodReachable : TaskDB → Prop where
  | init : GoodReachable emptyDB
  | step_register (hash : String → String) (db : TaskDB) (email password : String) :
      GoodReachable db → GoodReachable (register_user hash db email password).1
  | step_extract (db : TaskDB) (uid : Nat) (decode : String → Option Json)
      (today : Date) (resp : Option String) :
      GoodReachable db →
      (∀ fields, parse_task decode today resp = Except.ok fields →
        ∃ p, lookupField fields "priority" = some (Json.str p) ∧
          (p = "High" ∨ p = "Medium" ∨ p = "Low")) →
      GoodReachable (processNote db uid decode today resp).1
  | step_complete (db : TaskDB) (uid tid : Nat) (now : String) :
      GoodReachable db → GoodReachable (complete_task db uid tid now).1
  | step_delete (db : TaskDB) (uid tid : Nat) :
      GoodReachable db → GoodReachable (delete_task db uid tid).1

/-! ## Concrete stores and decoders used in the examples below -/

/-- A store whose task table holds tasks of two users across both
statuses, with due dates whose lexical and calendar orders disagree. -/
def dbLexExample : TaskDB :=
  ⟨[],
    [⟨1, 1, "report", some "John", some "14-11-2024", some "High", "active", none⟩,
     ⟨2, 1, "slides", some "Mary", some "05-12-2024", some "Low", "active", none⟩,
     ⟨3, 2, "invoice", some "Ann", some "01-01-2024", some "Low", "active", none⟩,
     ⟨4, 1, "email", some "Bob", some "01-01-2024", some "Low", "completed", none⟩],
    1, 5⟩

/-- A store owned state: one task, belonging to user 2. -/
def dbOtherOwner : TaskDB :=
  ⟨[], [⟨1, 2, "write report", some "Ann", some "14-11-2024", some "High", "active", none⟩],
    1, 2⟩

/-- One registered user (digest as stored by a digest function). -/
def dbOneUser : TaskDB := ⟨[⟨1, "alice@example.com", "Secret9x"⟩], [], 2, 1⟩

/-- A decoder (model response) whose object carries priority `Urgent`. -/
def decodeUrgent : String → Option Json := fun _ =>
  some (Json.obj [("task", Json.str "Call Bob"), ("customer", Json.str "Bob"),
    ("due_date", Json.str "01-01-2025"), ("priority", Json.str "Urgent")])

/-- The store after extracting and saving the `Urgent` response. -/
def dbUrgent : TaskDB := (processNote emptyDB 1 decodeUrgent ⟨2024, 11, 14⟩ (some "x")).1

/-- A decoder whose object carries priority `High`. -/
def decodeHigh : String → Option Json := fun _ =>
  some (Json.obj [("task", Json.str "Call Bob"), ("customer", Json.str "Bob"),
    ("due_date", Json.str "01-01-2025"), ("priority", Json.str "High")])

/-- The store after extracting and saving the `High` response. -/
def dbHigh : TaskDB := (processNote emptyDB 1 decodeHigh ⟨2024, 11, 14⟩ (some "x")).1

/-- A decoder whose object lacks `priority` and has a numeric
`due_date`. -/
def decodeNoPriorityNumDue : String → Option Json := fun _ =>
  some (Json.obj [("task", Json.str "Send report"), ("customer", Json.str "John"),
    ("due_date", Json.num 5)])

/-- A decoder whose object lacks `due_date`. -/
def decodeNoDue : String → Option Json := fun _ =>
  some (Json.obj [("task", Json.str "Send report"), ("customer", Json.str "John"),
    ("priority", Json.str "Medium")])

/-- A decoder whose object says the due date is the word `Tomorrow`. -/
def decodeTomorrow : String → Option Json := fun _ =>
  some (Json.obj [("task", Json.str "Write an email to David"),
    ("customer", Json.str "David"), ("due_date", Json.str "Tomorrow"),
    ("priority", Json.str "Medium")])

/-! ## Order facts about the sort comparison -/

theorem charListLe_total (as bs : List Char) :
    charListLe as bs = true ∨ charListLe bs as = true := by
  induction as generalizing bs with
  | nil => exact Or.inl rfl
  | cons a as ih =>
    cases bs with
    | nil => exact Or.inr rfl
    | cons b bs =>
      rcases lt_trichotomy a b with h | h | h
      · left; simp [charListLe, h]
      · subst h
        rcases ih bs with h2 | h2
        · left; simpa [charListLe, lt_irrefl] using h2
        · right; simpa [charListLe, lt_irrefl] using h2
      · right; simp [charListLe, h]

theorem charListLe_trans (as bs cs : List Char) (h1 : charListLe as bs = true)
    (h2 : charListLe bs cs = true) : charListLe as cs = true := by
  induction as generalizing bs cs with
  | nil => rfl
  | cons a as ih =>
    cases bs with
    | nil => simp [charListLe] at h1
    | cons b bs =>
      cases cs with
      | nil => simp [charListLe] at h2
      | cons c cs =>
        rcases lt_trichotomy a b with hab | hab | hab
        · rcases lt_trichotomy b c with hbc | hbc | hbc
          · simp [charListLe, lt_trans hab hbc]
          · subst hbc; simp [charListLe, hab]
          · simp only [charListLe, if_neg (asymm hbc), if_pos hbc] at h2
            exact absurd h2 (by decide)
        · subst hab
          rcases lt_trichotomy a c with hac | hac | hac
          · simp [charListLe, hac]
          · subst hac
            simp only [charListLe, if_neg (lt_irrefl a)] at h1 h2 ⊢
            exact ih bs cs h1 h2
          · simp only [charListLe, if_neg (asymm hac), if_pos hac] at h2
            exact absurd h2 (by decide)
        · simp only [charListLe, if_neg (asymm hab), if_pos hab] at h1
          exact absurd h1 (by decide)

theorem optStrLe_total (a b : Option String) :
    optStrLe a b = true ∨ optStrLe b a = true := by
  cases a with
  | none => exact Or.inl rfl
  | some x =>
    cases b with
    | none => exact Or.inr rfl
    | some y => exact charListLe_total x.data y.data

theorem optStrLe_trans (a b c : Option String) (h1 : optStrLe a b = true)
    (h2 : optStrLe b c = true) : optStrLe a c = true := by
  cases a with
  | none => rfl
  | some x =>
    cases b with
    | none => simp [optStrLe] at h1
    | some y =>
      cases c with
      | none => simp [optStrLe] at h2
      | some z => exact charListLe_trans x.data y.data z.data h1 h2

instance : IsTotal TaskView viewLe :=
  ⟨fun a b => optStrLe_total a.due_date b.due_date⟩

instance : IsTrans TaskView viewLe :=
  ⟨fun a b c => optStrLe_trans a.due_date b.due_date c.due_date⟩

/-! ## C6 — listing tasks -/

/-- C6: `get_tasks` returns exactly the caller's tasks with the requested
status — a permutation of the filtered task table — ordered ascending by
the lexical (string) order of the `due_date` text, not by calendar order;
concretely, `05-12-2024` sorts before `14-11-2024` although it is the
later calendar date. -/
theorem get_tasks_spec :
    (∀ db uid status,
      ((get_tasks db uid status).Perm
        ((db.tasks.filter (fun t => t.user_id == uid && t.status == status)).map taskView))
      ∧ List.Sorted viewLe (get_tasks db uid status))
    ∧ (get_tasks dbLexExample 1 "active").map (fun v => v.due_date) =
        [some "05-12-2024", some "14-11-2024"] := by
  refine ⟨fun db uid status => ⟨?_, ?_⟩, by rfl⟩
  · exact List.perm_insertionSort viewLe _
  · exact List.sorted_insertionSort viewLe _

/-! ## C3, C7, C8 — the credential store -/

/-- C3: registering a fresh email with a policy-conformant password
succeeds, and verifying the same credentials afterwards returns the
identity of the registered user, whose email matches. -/
theorem register_then_verify (hash : String → String) (db : TaskDB)
    (email password : String)
    (hpol : validate_password password = (true, ""))
    (hfresh : ∀ u ∈ db.users, u.email ≠ email) :
    (register_user hash db email password).2 = true ∧
    verify_user hash (register_user hash db email password).1 email password =
      some ⟨db.nextUserId, email⟩ := by
  have hany : (db.users.any (fun u => u.email == email)) = false := by
    rw [List.any_eq_false]
    intro u hu
    simpa using hfresh u hu
  have hfind : db.users.find?
      (fun u => u.email == email && u.password == hash password) = none := by
    rw [List.find?_eq_none]
    intro u hu
    simp only [Bool.and_eq_true, beq_iff_eq, not_and]
    intro he
    exact absurd he (hfresh u hu)
  constructor
  · simp [register_user, hany]
  · simp only [register_user, hany, Bool.false_eq_true, if_false]
    unfold verify_user
    rw [List.find?_append, hfind]
    simp [List.find?]

/-- Witness for C3: fresh registration then verification on the empty
store, with a password satisfying the policy. -/
theorem register_then_verify_witness :
    (register_user (fun s => s) emptyDB "alice@example.com" "Passw0rd").2 = true ∧
    verify_user (fun s => s)
      (register_user (fun s => s) emptyDB "alice@example.com" "Passw0rd").1
      "alice@example.com" "Passw0rd" = some ⟨1, "alice@example.com"⟩ :=
  register_then_verify (fun s => s) emptyDB "alice@example.com" "Passw0rd"
    (by decide) (by intro u hu; simp [emptyDB] at hu)

/-- C7: `verify_user` returns an identity exactly when some stored row
matches both the email and the digest of the supplied password; with a
stored email but non-matching digest, or with an unknown email, it
returns `none`, and the two failure cases are indistinguishable (equal
results). -/
theorem verify_matches_iff (hash : String → String) (db : TaskDB)
    (email password email2 password2 : String) :
    ((verify_user hash db email password).isSome ↔
      ∃ u ∈ db.users, u.email = email ∧ u.password = hash password)
    ∧ ((∀ u ∈ db.users, u.email = email → u.password ≠ hash password) →
        verify_user hash db email password = none)
    ∧ ((∀ u ∈ db.users, u.email ≠ email2) →
        verify_user hash db email2 password2 = none)
    ∧ ((∀ u ∈ db.users, u.email = email → u.password ≠ hash password) →
        (∀ u ∈ db.users, u.email ≠ email2) →
        verify_user hash db email password = verify_user hash db email2 password2) := by
  have key : ∀ (e p : String),
      (∀ u ∈ db.users, ¬(u.email = e ∧ u.password = hash p)) →
      verify_user hash db e p = none := by
    intro e p h
    unfold verify_user
    have hf : db.users.find? (fun u => u.email == e && u.password == hash p) = none := by
      rw [List.find?_eq_none]
      intro u hu
      simpa using h u hu
    rw [hf]
  refine ⟨?_, ?_, ?_, ?_⟩
  · unfold verify_user
    cases hf : db.users.find?
        (fun u => u.email == email && u.password == hash password) with
    | none =>
      rw [List.find?_eq_none] at hf
      simp only [Option.isSome_none, Bool.false_eq_true, false_iff]
      rintro ⟨u, hu, he, hp⟩
      exact absurd (by simp [he, hp]) (hf u hu)
    | some u =>
      have hm := List.mem_of_find?_eq_some hf
      have hp := List.find?_some hf
      simp only [Bool.and_eq_true, beq_iff_eq] at hp
      simp only [Option.isSome_some, true_iff]
      exact ⟨u, hm, hp.1, hp.2⟩
  · intro h
    exact key email password (fun u hu hc => h u hu hc.1 hc.2)
  · intro h
    exact key email2 password2 (fun u hu hc => h u hu hc.1)
  · intro h1 h2
    rw [key email password (fun u hu hc => h1 u hu hc.1 hc.2),
      key email2 password2 (fun u hu hc => h2 u hu hc.1)]

/-- Witness for C7: a wrong password for a stored email and an unknown
email both verify to `none` on a concrete one-user store. -/
theorem verify_matches_iff_witness :
    verify_user (fun s => s) dbOneUser "alice@example.com" "wrong" = none ∧
    verify_user (fun s => s) dbOneUser "bob@example.com" "Secret9x" = none :=
  ⟨(verify_matches_iff (fun s => s) dbOneUser "alice@example.com" "wrong"
      "bob@example.com" "Secret9x").2.1 (by decide),
    (verify_matches_iff (fun s => s) dbOneUser "alice@example.com" "wrong"
      "bob@example.com" "Secret9x").2.2.1 (by decide)⟩

/-- C8: registering an email already present in the store fails with the
duplicate-email failure and leaves the whole store — in particular the
existing user row — unchanged. -/
theorem register_duplicate_unchanged (hash : String → String) (db : TaskDB)
    (email password : String) (u : UserRow) (hu : u ∈ db.users)
    (he : u.email = email) :
    register_user hash db email password = (db, false) := by
  have hdup : (db.users.any (fun v => v.email == email)) = true :=
    List.any_eq_true.mpr ⟨u, hu, by simp [he]⟩
  simp [register_user, hdup]

/-- Witness for C8: duplicate registration on the one-user store. -/
theorem register_duplicate_unchanged_witness :
    register_user (fun s => s) dbOneUser "alice@example.com" "Other2Pw" =
      (dbOneUser, false) :=
  register_duplicate_unchanged (fun s => s) dbOneUser "alice@example.com"
    "Other2Pw" ⟨1, "alice@example.com", "Secret9x"⟩ (by decide) rfl

/-! ## C1 — completing a missing or foreign task -/

/-- C1 (amended): when no stored task matches both the task id and the
acting user's id — the task does not exist or belongs to another user —
`complete_task` leaves every task (and the whole store) unmodified, but
it returns success (`true`), not failure: the `UPDATE` simply matches no
row and the source returns `True` unconditionally. -/
theorem complete_task_no_match (db : TaskDB) (uid tid : Nat) (now : String)
    (h : ∀ t ∈ db.tasks, ¬(t.id = tid ∧ t.user_id = uid)) :
    complete_task db uid tid now = (db, true) := by
  unfold complete_task
  have hmap : db.tasks.map (fun t =>
      if t.id == tid && t.user_id == uid then
        { t with status := "completed", completion_date := some now }
      else t) = db.tasks.map id := by
    apply List.map_congr_left
    intro t ht
    have hc : (t.id == tid && t.user_id == uid) = false := by
      simpa using h t ht
    simp [hc]
  rw [hmap, List.map_id]

/-- Witness for C1's amended theorem: completing task 1 as user 1 when
the only stored task belongs to user 2. -/
theorem complete_task_no_match_witness :
    complete_task dbOtherOwner 1 1 "15-11-2024 09:00" = (dbOtherOwner, true) :=
  complete_task_no_match dbOtherOwner 1 1 "15-11-2024 09:00" (by decide)

/-- C1 counterexample: the store holds exactly one task and it is owned
by user 2; `complete_task` called by user 1 on that task id leaves the
store unchanged but returns `true` (success), where the claim requires a
failure result. -/
theorem complete_task_foreign_cex :
    dbOtherOwner.tasks.map (fun t => t.user_id) = [2] ∧
    complete_task dbOtherOwner 1 1 "15-11-2024 09:00" = (dbOtherOwner, true) :=
  ⟨rfl, rfl⟩

/-! ## C9 — the overdue check -/

/-- C9: `check_overdue` is true exactly when the due-date string parses
under the DD-MM-YYYY format as a calendar date strictly before today; a
string that fails to parse yields `false` (fail-safe): in particular
`01-01-2000` is overdue for every later current date, and `not-a-date` is
never overdue. -/
theorem check_overdue_spec :
    (∀ today s, check_overdue today s = true ↔
      ∃ d, parseDDMMYYYY s = some d ∧ dateLt d today = true)
    ∧ (∀ today, dateLt ⟨2000, 1, 1⟩ today = true →
        check_overdue today "01-01-2000" = true)
    ∧ (∀ today, check_overdue today "not-a-date" = false) := by
  refine ⟨?_, ?_, ?_⟩
  · intro today s
    unfold check_overdue
    cases h : parseDDMMYYYY s <;> simp [h]
  · intro today h
    have hp : parseDDMMYYYY "01-01-2000" = some ⟨2000, 1, 1⟩ := rfl
    unfold check_overdue
    rw [hp]
    exact h
  · intro today
    rfl

/-- Witness for C9: the overdue check evaluated at the spec's two example
strings against the concrete current date 05-05-2024. -/
theorem check_overdue_spec_witness :
    check_overdue ⟨2024, 5, 5⟩ "01-01-2000" = true ∧
    check_overdue ⟨2024, 5, 5⟩ "not-a-date" = false :=
  ⟨check_overdue_spec.2.1 ⟨2024, 5, 5⟩ rfl, check_overdue_spec.2.2 ⟨2024, 5, 5⟩⟩

/-! ## Dictionary lemmas for the pipeline -/

theorem lookup_setField_same (fields : List (String × Json)) (k : String) (v : Json) :
    lookupField (setField fields k v) k = some v := by
  induction fields with
  | nil => simp [setField, lookupField, List.find?]
  | cons a rest ih =>
    by_cases h : a.1 = k
    · simp [setField, lookupField, List.find?, h]
    · have hb : (a.1 == k) = false := by simpa using h
      simp only [setField, hb, Bool.false_eq_true, if_false]
      simpa [lookupField, List.find?, hb] using ih

theorem lookup_setField_other (fields : List (String × Json)) (k k2 : String)
    (v : Json) (hk : k ≠ k2) :
    lookupField (setField fields k v) k2 = lookupField fields k2 := by
  induction fields with
  | nil =>
    have hb : (k == k2) = false := by simpa using hk
    simp [setField, lookupField, List.find?, hb]
  | cons a rest ih =>
    by_cases h : a.1 = k
    · have hb : (a.1 == k) = true := by simpa using h
      have hb2 : (a.1 == k2) = false := by
        subst h; simpa using hk
      have hb3 : (k == k2) = false := by simpa using hk
      simp [setField, lookupField, List.find?, hb, hb2, hb3]
    · have hb : (a.1 == k) = false := by simpa using h
      by_cases h2 : a.1 = k2
      · have hb2 : (a.1 == k2) = true := by simpa using h2
        simp [setField, lookupField, List.find?, hb, hb2]
      · have hb2 : (a.1 == k2) = false := by simpa using h2
        simp only [setField, hb, Bool.false_eq_true, if_false]
        simpa [lookupField, List.find?, hb2] using ih

/-- A record missing one of the four required keys fails validation. -/
theorem validateFields_missing (fs : List (String × Json)) (k : String)
    (hk : k ∈ required_fields) (h : lookupField fs k = none) :
    validateFields fs = Except.error ParseFailure.incompleteRecord := by
  unfold validateFields
  have hall : (required_fields.all (fun k2 => (lookupField fs k2).isSome)) = false := by
    rcases Bool.eq_false_or_eq_true (required_fields.all fun k2 => (lookupField fs k2).isSome)
      with ht | hf
    · have := List.all_eq_true.mp ht k hk
      rw [h] at this
      exact absurd this (by decide)
    · exact hf
  simp [hall]

/-- A nonempty, non-blank response reaches the decode stage. -/
theorem parse_task_some (decode : String → Option Json) (today : Date)
    (resp : String) (h : resp ≠ "") :
    parse_task decode today (some resp) =
      decodeStage today (decode (unwrapResponse resp)) := by
  unfold parse_task
  have hb : (resp == "") = false := by simpa using h
  simp [hb]

/-- A present non-string `due_date` takes the generic exception path of
the normalization (Python `AttributeError` on `.lower()`). -/
theorem normalizeDue_nonstr (today : Date) (fs : List (String × Json)) (j : Json)
    (h : lookupField fs "due_date" = some j) (hj : ∀ s, j ≠ Json.str s) :
    normalizeDue today fs = Except.error ParseFailure.genericError := by
  unfold normalizeDue
  rw [h]
  cases j with
  | str s => exact absurd rfl (hj s)
  | null => rfl
  | bool b => rfl
  | num n => rfl
  | arr xs => rfl
  | obj o => rfl

/-- An absent `due_date` passes the normalization unchanged (the
`dict.get` default compares unequal to `tomorrow`). -/
theorem normalizeDue_absent (today : Date) (fs : List (String × Json))
    (h : lookupField fs "due_date" = none) :
    normalizeDue today fs = Except.ok fs := by
  unfold normalizeDue
  rw [h]

/-- A string `due_date` other than `tomorrow` (case-insensitively)
passes the normalization unchanged. -/
theorem normalizeDue_other_str (today : Date) (fs : List (String × Json))
    (s : String) (h : lookupField fs "due_date" = some (Json.str s))
    (hs : pyLower s ≠ "tomorrow") :
    normalizeDue today fs = Except.ok fs := by
  unfold normalizeDue
  rw [h]
  have hb : (pyLower s == "tomorrow") = false := by simpa using hs
  simp [hb]

/-- A string `due_date` equal to `tomorrow` (case-insensitively) is
replaced by tomorrow's formatted date. -/
theorem normalizeDue_tomorrow (today : Date) (fs : List (String × Json))
    (s : String) (h : lookupField fs "due_date" = some (Json.str s))
    (hs : pyLower s = "tomorrow") :
    normalizeDue today fs =
      Except.ok (setField fs "due_date" (Json.str (fmtDDMMYYYY (nextDay today)))) := by
  unfold normalizeDue
  rw [h]
  have hb : (pyLower s == "tomorrow") = true := by simpa using hs
  simp [hb]

/-- The formatted date always contains a dash, so it is never the word
`tomorrow`. -/
theorem fmt_ne_tomorrow (d : Date) : fmtDDMMYYYY d ≠ "tomorrow" := by
  intro h
  have hmem : '-' ∈ (fmtDDMMYYYY d).data := by
    unfold fmtDDMMYYYY
    simp only [String.data_append, List.mem_append]
    have hd : '-' ∈ "-".data := by decide
    tauto
  rw [h] at hmem
  exact absurd hmem (by decide)

/-- Unfolding of the decode stage on a decoded object. -/
theorem decodeStage_obj (today : Date) (fields : List (String × Json)) :
    decodeStage today (some (Json.obj fields)) =
      match normalizeDue today fields with
      | Except.ok fs => validateFields fs
      | Except.error e => Except.error e := rfl

/-! ## C4 — the tomorrow normalization -/

/-- C4 (amended): a parsed response whose `due_date` string equals the
word `tomorrow` case-insensitively (with all four required fields
present) makes the pipeline output carry tomorrow's calendar date — the
extraction date plus one day, formatted DD-MM-YYYY — and that formatted
date is never the literal word `tomorrow`; a response whose `due_date` is
any other string, or absent, is left unchanged by the normalization step;
a non-string `due_date` value instead makes the extraction fail with a
typed failure. -/
theorem tomorrow_normalized :
    (∀ decode today (resp : String) fields s, resp ≠ "" →
      decode (unwrapResponse resp) = some (Json.obj fields) →
      lookupField fields "due_date" = some (Json.str s) →
      pyLower s = "tomorrow" →
      required_fields.all (fun k => (lookupField fields k).isSome) = true →
      parse_task decode today (some resp) =
        Except.ok (setField fields "due_date"
          (Json.str (fmtDDMMYYYY (nextDay today)))) ∧
      lookupField (setField fields "due_date"
          (Json.str (fmtDDMMYYYY (nextDay today)))) "due_date" =
        some (Json.str (fmtDDMMYYYY (nextDay today))))
    ∧ (∀ today, fmtDDMMYYYY (nextDay today) ≠ "tomorrow")
    ∧ (∀ today fields s, lookupField fields "due_date" = some (Json.str s) →
        pyLower s ≠ "tomorrow" → normalizeDue today fields = Except.ok fields)
    ∧ (∀ today fields, lookupField fields "due_date" = none →
        normalizeDue today fields = Except.ok fields)
    ∧ (∀ today fields j, lookupField fields "due_date" = some j →
        (∀ s, j ≠ Json.str s) →
        normalizeDue today fields = Except.error ParseFailure.genericError) := by
  refine ⟨?_, fun today => fmt_ne_tomorrow (nextDay today),
    normalizeDue_other_str, normalizeDue_absent, normalizeDue_nonstr⟩
  intro decode today resp fields s hresp hdec hdue hlow hall
  have hupd : ∀ k, k ≠ "due_date" →
      lookupField (setField fields "due_date"
        (Json.str (fmtDDMMYYYY (nextDay today)))) k = lookupField fields k :=
    fun k hk =>
      lookup_setField_other fields "due_date" k _ (fun he => hk he.symm)
  have hall2 : required_fields.all (fun k =>
      (lookupField (setField fields "due_date"
        (Json.str (fmtDDMMYYYY (nextDay today)))) k).isSome) = true := by
    simp only [required_fields, List.all_cons, List.all_nil, Bool.and_eq_true] at hall ⊢
    refine ⟨?_, ?_, ?_, ?_, trivial⟩
    · rw [hupd "task" (by decide)]; exact hall.1
    · rw [hupd "customer" (by decide)]; exact hall.2.1
    · rw [lookup_setField_same]; rfl
    · rw [hupd "priority" (by decide)]; exact hall.2.2.2.1
  constructor
  · rw [parse_task_some decode today resp hresp, hdec, decodeStage_obj,
      normalizeDue_tomorrow today fields s hdue hlow]
    simp [validateFields, hall2]
  · exact lookup_setField_same fields "due_date" _

/-- C4 counterexample: a parsed response whose `due_date` is the JSON
number `5` — a value other than the word `tomorrow` — is not left
unchanged by the normalization step: the step takes the caught-exception
path and the whole extraction fails. -/
theorem tomorrow_normalized_cex :
    normalizeDue ⟨2024, 11, 14⟩ [("task", Json.str "Send report"),
        ("customer", Json.str "John"), ("due_date", Json.num 5)] =
      Except.error ParseFailure.genericError ∧
    parse_task decodeNoPriorityNumDue ⟨2024, 11, 14⟩ (some "x") =
      Except.error ParseFailure.genericError := ⟨rfl, rfl⟩

/-- Witness for C4: on the spec's example response (due `Tomorrow`),
extraction on 14-11-2024 outputs due date 15-11-2024, not the word. -/
theorem tomorrow_normalized_witness :
    parse_task decodeTomorrow ⟨2024, 11, 14⟩ (some "x") =
      Except.ok [("task", Json.str "Write an email to David"),
        ("customer", Json.str "David"), ("due_date", Json.str "15-11-2024"),
        ("priority", Json.str "Medium")] :=
  (tomorrow_normalized.1 decodeTomorrow ⟨2024, 11, 14⟩ "x"
    [("task", Json.str "Write an email to David"), ("customer", Json.str "David"),
      ("due_date", Json.str "Tomorrow"), ("priority", Json.str "Medium")]
    "Tomorrow" (by decide) rfl rfl rfl rfl).1

/-! ## C2 — extraction failure writes nothing -/

/-- C2 (amended): whenever extraction fails, the save flow performs no
store write — the task table (indeed the whole store) is unchanged and no
partial task is persisted; and a model response parsed as an object that
lacks the `priority` key, with `due_date` absent or a string, fails as
the missing-required-fields failure with no task created. -/
theorem extraction_failure_no_write :
    (∀ db uid decode today resp e,
      parse_task decode today resp = Except.error e →
      processNote db uid decode today resp = (db, false))
    ∧ (∀ db uid decode today (resp : String) fields, resp ≠ "" →
        decode (unwrapResponse resp) = some (Json.obj fields) →
        lookupField fields "priority" = none →
        (∀ j, lookupField fields "due_date" = some j → ∃ s, j = Json.str s) →
        parse_task decode today (some resp) =
          Except.error ParseFailure.incompleteRecord ∧
        processNote db uid decode today (some resp) = (db, false)) := by
  have hfail : ∀ db uid decode today resp e,
      parse_task decode today resp = Except.error e →
      processNote db uid decode today resp = (db, false) := by
    intro db uid decode today resp e h
    unfold processNote
    rw [h]
  refine ⟨hfail, ?_⟩
  intro db uid decode today resp fields hresp hdec hprio hdue
  have hparse : parse_task decode today (some resp) =
      Except.error ParseFailure.incompleteRecord := by
    rw [parse_task_some decode today resp hresp, hdec, decodeStage_obj]
    cases hd : lookupField fields "due_date" with
    | none =>
      rw [normalizeDue_absent today fields hd]
      exact validateFields_missing fields "priority" (by decide) hprio
    | some j =>
      rcases hdue j hd with ⟨s, rfl⟩
      by_cases hlow : pyLower s = "tomorrow"
      · rw [normalizeDue_tomorrow today fields s hd hlow]
        apply validateFields_missing _ "priority" (by decide)
        rw [lookup_setField_other fields "due_date" "priority" _ (by decide)]
        exact hprio
      · rw [normalizeDue_other_str today fields s hd hlow]
        exact validateFields_missing fields "priority" (by decide) hprio
  exact ⟨hparse, hfail db uid decode today (some resp) _ hparse⟩

/-- C2 counterexample: a model response missing the `priority` field but
carrying a numeric `due_date` does not yield the missing-fields failure —
the `.lower()` call on the number raises first, so the extraction fails on
the generic exception path instead (still, no task is created). -/
theorem missing_priority_cex :
    lookupField [("task", Json.str "Send report"), ("customer", Json.str "John"),
        ("due_date", Json.num 5)] "priority" = none ∧
    parse_task decodeNoPriorityNumDue ⟨2024, 11, 14⟩ (some "x") =
      Except.error ParseFailure.genericError ∧
    (ParseFailure.genericError == ParseFailure.incompleteRecord) = false ∧
    processNote emptyDB 1 decodeNoPriorityNumDue ⟨2024, 11, 14⟩ (some "x") =
      (emptyDB, false) := ⟨rfl, rfl, rfl, rfl⟩

/-- A decoder whose object lacks `priority` and has a textual
`due_date`. -/
def decodeNoPriorityStrDue : String → Option Json := fun _ =>
  some (Json.obj [("task", Json.str "Send report"), ("customer", Json.str "John"),
    ("due_date", Json.str "14-11-2024")])

/-- Witness for C2: a response missing `priority` (textual due date)
fails as missing-fields and leaves the empty store unchanged. -/
theorem extraction_failure_no_write_witness :
    parse_task decodeNoPriorityStrDue ⟨2024, 11, 14⟩ (some "x") =
      Except.error ParseFailure.incompleteRecord ∧
    processNote emptyDB 1 decodeNoPriorityStrDue ⟨2024, 11, 14⟩ (some "x") =
      (emptyDB, false) :=
  extraction_failure_no_write.2 emptyDB 1 decodeNoPriorityStrDue ⟨2024, 11, 14⟩ "x"
    [("task", Json.str "Send report"), ("customer", Json.str "John"),
      ("due_date", Json.str "14-11-2024")]
    (by decide) rfl rfl
    (by intro j hj; injection hj with h; exact ⟨"14-11-2024", h.symm⟩)

/-! ## C10 — totality of the parsing step -/

/-- C10: the parsing step is total over model responses — every response
yields either a parsed record or one of the typed failure values — and in
particular a decoded object lacking the `due_date` key takes the
missing-required-fields failure path (the `dict.get` default shields the
tomorrow-normalization from a missing key), while an object with a
non-string `due_date` takes the caught-exception failure path; neither
escapes as an unhandled exception. -/
theorem parse_task_total :
    (∀ decode today resp, (∃ r, parse_task decode today resp = Except.ok r) ∨
      (∃ e, parse_task decode today resp = Except.error e))
    ∧ (∀ decode today (resp : String) fields, resp ≠ "" →
        decode (unwrapResponse resp) = some (Json.obj fields) →
        lookupField fields "due_date" = none →
        parse_task decode today (some resp) =
          Except.error ParseFailure.incompleteRecord)
    ∧ (∀ decode today (resp : String) fields j, resp ≠ "" →
        decode (unwrapResponse resp) = some (Json.obj fields) →
        lookupField fields "due_date" = some j → (∀ s, j ≠ Json.str s) →
        parse_task decode today (some resp) =
          Except.error ParseFailure.genericError) := by
  refine ⟨?_, ?_, ?_⟩
  · intro decode today resp
    cases h : parse_task decode today resp with
    | ok r => exact Or.inl ⟨r, rfl⟩
    | error e => exact Or.inr ⟨e, rfl⟩
  · intro decode today resp fields hresp hdec hdue
    rw [parse_task_some decode today resp hresp, hdec, decodeStage_obj,
      normalizeDue_absent today fields hdue]
    exact validateFields_missing fields "due_date" (by decide) hdue
  · intro decode today resp fields j hresp hdec hdue hj
    rw [parse_task_some decode today resp hresp, hdec, decodeStage_obj,
      normalizeDue_nonstr today fields j hdue hj]

/-- Witness for C10: a decoded object lacking `due_date` yields the
missing-fields failure at concrete inputs. -/
theorem parse_task_total_witness :
    parse_task decodeNoDue ⟨2024, 11, 14⟩ (some "y") =
      Except.error ParseFailure.incompleteRecord :=
  parse_task_total.2.1 decodeNoDue ⟨2024, 11, 14⟩ "y"
    [("task", Json.str "Send report"), ("customer", Json.str "John"),
      ("priority", Json.str "Medium")] (by decide) rfl rfl

/-! ## C5 — the priority invariant -/

theorem register_user_tasks (hash : String → String) (db : TaskDB)
    (email password : String) :
    (register_user hash db email password).1.tasks = db.tasks := by
  unfold register_user
  split <;> rfl

/-- Every task present after a `save_task` call was already stored, or
is the new row, whose priority is the bound text of the record's
`priority` value. -/
theorem save_task_mem (db : TaskDB) (uid : Nat) (td : List (String × Json))
    (t : TaskRow) (h : t ∈ (save_task db uid td).1.tasks) :
    t ∈ db.tasks ∨
      ∃ pj, lookupField td "priority" = some pj ∧
        jsonToText pj = some t.priority := by
  rcases h1 : lookupField td "task" with _ | tj
  · simp only [save_task, h1] at h
    exact Or.inl h
  rcases h2 : lookupField td "customer" with _ | cj
  · simp only [save_task, h1, h2] at h
    exact Or.inl h
  rcases h3 : lookupField td "due_date" with _ | dj
  · simp only [save_task, h1, h2, h3] at h
    exact Or.inl h
  rcases h4 : lookupField td "priority" with _ | pj
  · simp only [save_task, h1, h2, h3, h4] at h
    exact Or.inl h
  rcases ht : jsonToText tj with _ | tv
  · simp only [save_task, h1, h2, h3, h4, ht] at h
    exact Or.inl h
  rcases tv with _ | tstr
  · simp only [save_task, h1, h2, h3, h4, ht] at h
    exact Or.inl h
  rcases hc : jsonToText cj with _ | cv
  · simp only [save_task, h1, h2, h3, h4, ht, hc] at h
    exact Or.inl h
  rcases hd : jsonToText dj with _ | dv
  · simp only [save_task, h1, h2, h3, h4, ht, hc, hd] at h
    exact Or.inl h
  rcases hp : jsonToText pj with _ | pv
  · simp only [save_task, h1, h2, h3, h4, ht, hc, hd, hp] at h
    exact Or.inl h
  · simp only [save_task, h1, h2, h3, h4, ht, hc, hd, hp] at h
    rw [List.mem_append] at h
    rcases h with h | h
    · exact Or.inl h
    · rw [List.mem_singleton] at h
      subst h
      exact Or.inr ⟨pj, rfl, by rw [hp]⟩

/-- `complete_task` only rewrites `status` and `completion_date`: every
task afterwards has the priority of a previously stored task. -/
theorem complete_task_mem (db : TaskDB) (uid tid : Nat) (now : String)
    (t : TaskRow) (h : t ∈ (complete_task db uid tid now).1.tasks) :
    ∃ t0 ∈ db.tasks, t.priority = t0.priority := by
  unfold complete_task at h
  rw [List.mem_map] at h
  rcases h with ⟨t0, ht0, heq⟩
  refine ⟨t0, ht0, ?_⟩
  by_cases hcond : (t0.id == tid && t0.user_id == uid) = true
  · rw [← heq]
    simp [hcond]
  · rw [Bool.not_eq_true] at hcond
    rw [← heq]
    simp [hcond]

theorem delete_task_mem (db : TaskDB) (uid tid : Nat) (t : TaskRow)
    (h : t ∈ (delete_task db uid tid).1.tasks) : t ∈ db.tasks := by
  unfold delete_task at h
  exact List.mem_of_mem_filter h

/-- C5 (amended): in every store state reachable from the empty store in
which each successful extraction carried one of the three instructed
priority literals (the format the prompt demands but the pipeline does
not re-validate), every persisted task's priority is one of `High`,
`Medium`, `Low`. -/
theorem priority_invariant_good (db : TaskDB) (h : GoodReachable db) :
    ∀ t ∈ db.tasks,
      t.priority = some "High" ∨ t.priority = some "Medium" ∨
        t.priority = some "Low" := by
  induction h with
  | init =>
    intro t ht
    simp [emptyDB] at ht
  | step_register hash db2 email password hr ih =>
    intro t ht
    rw [register_user_tasks] at ht
    exact ih t ht
  | step_extract db2 uid decode today resp hr hgood ih =>
    intro t ht
    unfold processNote at ht
    cases hp : parse_task decode today resp with
    | error e =>
      rw [hp] at ht
      exact ih t ht
    | ok fields =>
      rw [hp] at ht
      rcases save_task_mem db2 uid fields t ht with hmem | ⟨pj, hpj, hjt⟩
      · exact ih t hmem
      · rcases hgood fields hp with ⟨p, hp2, hset⟩
        rw [hp2] at hpj
        injection hpj with he
        subst he
        simp only [jsonToText] at hjt
        injection hjt with he2
        rcases hset with h1 | h1 | h1 <;> subst h1
        · exact Or.inl he2.symm
        · exact Or.inr (Or.inl he2.symm)
        · exact Or.inr (Or.inr he2.symm)
  | step_complete db2 uid tid now hr ih =>
    intro t ht
    rcases complete_task_mem db2 uid tid now t ht with ⟨t0, ht0, hpr⟩
    rw [hpr]
    exact ih t0 ht0
  | step_delete db2 uid tid hr ih =>
    intro t ht
    exact ih t (delete_task_mem db2 uid tid t ht)

/-- C5 counterexample: from the empty store, one successful extraction
whose decoded response carries priority `Urgent` (a value the pipeline
does not re-validate) reaches a state whose single persisted task has a
priority outside the allowed set. -/
theorem priority_invariant_cex :
    Reachable dbUrgent ∧
    dbUrgent.tasks.map (fun t => t.priority) = [some "Urgent"] ∧
    dbUrgent.tasks.all (fun t => t.priority == some "High" ||
      t.priority == some "Medium" || t.priority == some "Low") = false :=
  ⟨Reachable.step_extract emptyDB 1 decodeUrgent ⟨2024, 11, 14⟩ (some "x")
      Reachable.init, rfl, rfl⟩

/-- Witness for C5's amended theorem: the store built by one conforming
extraction is good-reachable, and its stored task's priority is in the
allowed set. -/
theorem priority_invariant_good_witness :
    (⟨1, 1, "Call Bob", some "Bob", some "01-01-2025", some "High", "active",
        none⟩ : TaskRow).priority = some "High" ∨
    (⟨1, 1, "Call Bob", some "Bob", some "01-01-2025", some "High", "active",
        none⟩ : TaskRow).priority = some "Medium" ∨
    (⟨1, 1, "Call Bob", some "Bob", some "01-01-2025", some "High", "active",
        none⟩ : TaskRow).priority = some "Low" :=
  priority_invariant_good dbHigh
    (GoodReachable.step_extract emptyDB 1 decodeHigh ⟨2024, 11, 14⟩ (some "x")
      GoodReachable.init (by
        intro fields hf
        have heq : parse_task decodeHigh ⟨2024, 11, 14⟩ (some "x") =
            Except.ok [("task", Json.str "Call Bob"), ("customer", Json.str "Bob"),
              ("due_date", Json.str "01-01-2025"), ("priority", Json.str "High")] := rfl
        rw [heq] at hf
        injection hf with hf2
        subst hf2
        exact ⟨"High", rfl, Or.inl rfl⟩))
    _ (by decide)

end TaskManager
